import Mathlib

/-!
Verification of the anti-filter-bridge tunneling core against its
specification.  The Python source is shallowly embedded: byte streams
become `List Nat` (one `Nat` per byte), async reads become prefix
consumption, stateful objects become explicit state records, and code
that can raise returns `Option`.
-/

namespace AFB

/-! ## SOCKS5 ingress (src/client.py, class TunnelClient) -/

/-- Big-endian `int.from_bytes`: an empty list yields 0, as in Python. -/
def fromBytesBE (bs : List Nat) : Nat := bs.foldl (fun a b => a * 256 + b) 0

/-- Python `socket.inet_ntop(AF_INET, addr)` on a 4-byte address: dotted decimal. -/
def inet_ntop4 (bs : List Nat) : String :=
  String.intercalate "." (bs.map (fun b => toString b))

/-- Pair up a byte list into 16-bit big-endian groups (for IPv6 text form). -/
def groupPairs : List Nat → List Nat
  | hi :: lo :: rest => (hi * 256 + lo) :: groupPairs rest
  | _ => []

/-- Python `socket.inet_ntop(AF_INET6, addr)`: modelled as colon-separated
lowercase hex groups without zero-run compression.  No claim depends on
the exact textual form of an IPv6 address, only on which address types
are accepted. -/
def inet_ntop6 (bs : List Nat) : String :=
  String.intercalate ":" ((groupPairs bs).map (fun g => String.mk (Nat.toDigits 16 g)))

/-- Python `bytes.decode("ascii")` on bytes already checked to be < 128. -/
def asciiString (bs : List Nat) : String := String.mk (bs.map Char.ofNat)

/-- Result of `TunnelClient._socks5_handshake`: either success (with the
reply bytes written to the client and the unread remainder of the input)
or an exception raised after writing `reply` (possibly empty). -/
inductive HSResult
  | ok (reply : List Nat) (rest : List Nat)
  | err (reply : List Nat)
  deriving DecidableEq, Repr

/-- Model of `TunnelClient._socks5_handshake`: read `(ver, n_methods)`, then the
method list; require version 5 and the exact number of method bytes;
reply `05 00` when method `0x00` is offered, else write `05 FF` and
raise. -/
def socks5Handshake (input : List Nat) : HSResult :=
  match input with
  | ver :: nMethods :: rest =>
    if ver ≠ 5 then .err []
    else
      let methods := rest.take nMethods
      if methods.length ≠ nMethods then .err []
      else if 0 ∈ methods then .ok [5, 0] (rest.drop nMethods)
      else .err [5, 255]
  | _ => .err []

/-- What `TunnelClient._get_target_address` produced for one request:
the reply bytes written to the client, the destination it returned
(`none` models the Python `(None, None)` returned on the 0x07/0x08
error replies), and the unread remainder of the input. -/
structure ReqOutcome where
  written : List Nat
  dest : Option (String × Nat)
  rest : List Nat
  deriving DecidableEq, Repr

/-- The ten-byte SOCKS5 reply `05 <code> 00 01 0.0.0.0:0`. -/
def socksReply (code : Nat) : List Nat := [5, code, 0, 1, 0, 0, 0, 0, 0, 0]

/-- Success tail of `_get_target_address`: read the 2-byte big-endian
port (Python's `int.from_bytes` accepts fewer than 2 bytes without
error) and write the success reply. -/
def targetSuccess (host : String) (afterAddr : List Nat) : Option ReqOutcome :=
  some ⟨socksReply 0, some (host, fromBytesBE (afterAddr.take 2)), afterAddr.drop 2⟩

/-- Model of `TunnelClient._get_target_address`.  Here `none` models a raised
exception (short read unpacking the 4-byte request header, a short IPv4
or IPv6 address passed to `inet_ntop`, or a non-ASCII domain byte).
Version or command mismatch writes reply code 7 and returns no
destination; an unknown address type writes reply code 8 and returns no
destination — in both cases the function returns normally. -/
def getTargetAddress (input : List Nat) : Option ReqOutcome :=
  match input with
  | version :: cmd :: _rsv :: addrType :: rest =>
    if version ≠ 5 ∨ cmd ≠ 1 then
      some ⟨socksReply 7, none, rest⟩
    else if addrType = 1 then
      let addr := rest.take 4
      if addr.length = 4 then targetSuccess (inet_ntop4 addr) (rest.drop 4)
      else none
    else if addrType = 3 then
      let addrLen := fromBytesBE (rest.take 1)
      let rest2 := rest.drop 1
      let nameBytes := rest2.take addrLen
      if nameBytes.all (fun b => b < 128) then
        targetSuccess (asciiString nameBytes) (rest2.drop addrLen)
      else none
    else if addrType = 4 then
      let addr := rest.take 16
      if addr.length = 16 then targetSuccess (inet_ntop6 addr) (rest.drop 16)
      else none
    else
      some ⟨socksReply 8, none, rest⟩
  | _ => none

/-- Model of `TunnelClient.handle_client` up to the decision whether the relay
loop `traffic_through_tunnel` is entered.  `wsOk` is the check that the
shared websocket exists and is not closed.  Returns whether the relay
loop was entered and the bytes written to the local client socket by
the handshake and request phases.  Any raised exception (`err`/`none`)
is caught and the connection closed without relaying; note that a
`(None, None)` destination from `_get_target_address` is *not* checked
before entering the relay loop. -/
def handleClient (wsOk : Bool) (input : List Nat) : Bool × List Nat :=
  match socks5Handshake input with
  | .err w => (false, w)
  | .ok w rest =>
    match getTargetAddress rest with
    | none => (false, w)
    | some o => (wsOk, w ++ o.written)

/-! ## Relay loop over the websocket (src/client.py, traffic_through_tunnel) -/

/-- Lowercase hex digit, as produced by Python's `bytes.hex()`. -/
def hexDigitChar (n : Nat) : Char :=
  if n < 10 then Char.ofNat (48 + n) else Char.ofNat (87 + n)

/-- Python `bytes.hex()`: two lowercase hex digits per byte. -/
def hexEncode (bs : List Nat) : String :=
  String.mk ((bs.map (fun b => [hexDigitChar (b / 16), hexDigitChar (b % 16)])).flatten)

/-- Value of one hex digit (`bytes.fromhex` accepts both cases). -/
def hexDigitVal (c : Char) : Option Nat :=
  if 48 ≤ c.toNat ∧ c.toNat ≤ 57 then some (c.toNat - 48)
  else if 97 ≤ c.toNat ∧ c.toNat ≤ 102 then some (c.toNat - 87)
  else if 65 ≤ c.toNat ∧ c.toNat ≤ 70 then some (c.toNat - 55)
  else none

/-- Python `bytes.fromhex` on a list of characters; `none` models the
`ValueError` raised on an odd length or a non-hex digit. -/
def hexDecodeChars : List Char → Option (List Nat)
  | [] => some []
  | [_] => none
  | c1 :: c2 :: rest =>
    match hexDigitVal c1, hexDigitVal c2, hexDecodeChars rest with
    | some h, some l, some bs => some ((h * 16 + l) :: bs)
    | _, _, _ => none

/-- Python `bytes.fromhex` on a string. -/
def hexDecodeStr (s : String) : Option (List Nat) := hexDecodeChars s.data

/-- One JSON message on the websocket, at the level of its fields.  The
client always populates all four fields; `target_host`/`target_port`
are `Option` because `_get_target_address` can return `(None, None)`
(serialized as JSON `null`) and a received response need not carry
them. -/
structure WireMsg where
  mtype : String
  target_host : Option String
  target_port : Option Nat
  mdata : String
  deriving DecidableEq, Repr

/-- The message `traffic_through_tunnel` sends for one chunk read from
the local socket: `{'type': 'data', 'target_host': ..., 'target_port':
..., 'data': chunk.hex()}`. -/
def dataMessage (host : Option String) (port : Option Nat) (chunk : List Nat) : WireMsg :=
  ⟨"data", host, port, hexEncode chunk⟩

/-- The loop of `TunnelClient.traffic_through_tunnel`, over the chunks
successively read from the local socket and the responses successively
received from the websocket.  Returns the messages sent on the
websocket and the byte chunks written back to the local socket.  An
empty chunk (`if not data: break`), an exhausted response list
(`asyncio.TimeoutError`), a `fromhex` failure (exception ends the
loop), and a response of type `error` all end the loop; a response of
any other type is ignored and the loop continues. -/
def trafficThroughTunnel (host : Option String) (port : Option Nat) :
    List (List Nat) → List WireMsg → List WireMsg × List (List Nat)
  | [], _ => ([], [])
  | c :: cs, rs =>
    if c.isEmpty then ([], [])
    else
      let m := dataMessage host port c
      match rs with
      | [] => ([m], [])
      | r :: rs2 =>
        if r.mtype = "data" then
          match hexDecodeStr r.mdata with
          | some bs =>
            let p := trafficThroughTunnel host port cs rs2
            (m :: p.1, bs :: p.2)
          | none => ([m], [])
        else if r.mtype = "error" then ([m], [])
        else
          let p := trafficThroughTunnel host port cs rs2
          (m :: p.1, p.2)

/-! ## Relay server (src/anti_filter_bridge/connection_manager.py) -/

/-- An observable effect of the relay server while processing traffic:
sending a websocket message back, or dialing an outbound TCP
connection. -/
inductive ServerAction
  | send (msg : String)
  | dial (host : String) (port : Nat)
  deriving DecidableEq, Repr

/-- Model of `ConnectionManager._process_message`: echoes the message back on
the same websocket (`await websocket.send(message)`); nothing else. -/
def processMessage (msg : String) : List ServerAction := [ServerAction.send msg]

/-- The `async for message in websocket` loop of
`ConnectionManager.handle_connection`: each received message is passed
to `_process_message`. -/
def handleConnection (msgs : List String) : List ServerAction :=
  (msgs.map processMessage).flatten

/-- Per-connection bookkeeping stored in `ConnectionManager.connections`. -/
structure ConnInfo where
  clientId : String
  connectedAt : Nat
  lastActivity : Nat
  retryCount : Nat
  timeout : ℚ
  active : Bool
  deriving DecidableEq

/-- The `ConnectionManager.connections` dict, as a map from websocket
handle to its info. -/
def Registry : Type := Nat → Option ConnInfo

/-- Model of `ConnectionManager._cleanup_connection`: pop the websocket from the
registry if present (then close the websocket, which does not touch the
registry). -/
def cleanupConnection (conns : Registry) (w : Nat) : Registry :=
  match conns w with
  | none => conns
  | some _ => fun x => if x = w then none else conns x

/-! ## Two concurrent local connections sharing the one websocket -/

/-- State of the shared transport as seen by two concurrent
`handle_client` coroutines A and B: the websocket's single inbound
message queue, and the bytes each coroutine has written back to its own
local SOCKS socket. -/
structure MuxState where
  queue : List WireMsg
  aOut : List (List Nat)
  bOut : List (List Nat)
  deriving DecidableEq, Repr

/-- Scheduler events: coroutine A or B reaches its `websocket.send` or
its `websocket.recv` suspension point. -/
inductive MuxEv
  | sendA (chunk : List Nat)
  | sendB (chunk : List Nat)
  | recvA
  | recvB

/-- Relay server's response to one client message: the echo of
`ConnectionManager._process_message`. -/
def echoReply (m : WireMsg) : WireMsg := m

/-- One scheduler step of two `traffic_through_tunnel` coroutines
sharing `self.websocket`: a send appends the server's reply to the
shared receive queue; a receive takes the head of the shared queue —
the protocol has no stream identifier, so `websocket.recv` cannot tell
whose response it returns — and writes the hex-decoded payload to that
coroutine's own local socket when the type is `data`. -/
def muxStep (hA hB : String × Nat) (s : MuxState) : MuxEv → MuxState
  | .sendA c =>
    { s with queue := s.queue ++ [echoReply (dataMessage (some hA.1) (some hA.2) c)] }
  | .sendB c =>
    { s with queue := s.queue ++ [echoReply (dataMessage (some hB.1) (some hB.2) c)] }
  | .recvA =>
    match s.queue with
    | [] => s
    | r :: q =>
      if r.mtype = "data" then
        match hexDecodeStr r.mdata with
        | some bs => { s with queue := q, aOut := s.aOut ++ [bs] }
        | none => { s with queue := q }
      else { s with queue := q }
  | .recvB =>
    match s.queue with
    | [] => s
    | r :: q =>
      if r.mtype = "data" then
        match hexDecodeStr r.mdata with
        | some bs => { s with queue := q, bOut := s.bOut ++ [bs] }
        | none => { s with queue := q }
      else { s with queue := q }

/-- Run a schedule of events from the idle shared-transport state. -/
def muxRun (hA hB : String × Nat) (evs : List MuxEv) : MuxState :=
  evs.foldl (muxStep hA hB) ⟨[], [], []⟩

/-! ## Helper lemmas -/

/-- Every message the relay loop sends has type `data`, carries the
destination host and port of this connection, and hex-encodes one of
the chunks read from the local socket. -/
theorem traffic_sent_fields (host : Option String) (port : Option Nat)
    (cs : List (List Nat)) : ∀ (rs : List WireMsg),
    ∀ m ∈ (trafficThroughTunnel host port cs rs).1,
      m.mtype = "data" ∧ m.target_host = host ∧ m.target_port = port ∧
      ∃ c ∈ cs, m.mdata = hexEncode c := by
  induction cs with
  | nil => intro rs m hm; simp [trafficThroughTunnel] at hm
  | cons c cs ih =>
    intro rs m hm
    simp only [trafficThroughTunnel] at hm
    split at hm
    · simp at hm
    · cases rs with
      | nil =>
        simp at hm
        subst hm
        exact ⟨rfl, rfl, rfl, c, List.mem_cons_self c cs, rfl⟩
      | cons r rs2 =>
        simp only at hm
        split at hm
        · cases hd : hexDecodeStr r.mdata with
          | some bs =>
            rw [hd] at hm
            simp at hm
            rcases hm with rfl | hm
            · exact ⟨rfl, rfl, rfl, c, List.mem_cons_self c cs, rfl⟩
            · obtain ⟨h1, h2, h3, c', hc', h4⟩ := ih rs2 m hm
              exact ⟨h1, h2, h3, c', List.mem_cons_of_mem c hc', h4⟩
          | none =>
            rw [hd] at hm
            simp at hm
            subst hm
            exact ⟨rfl, rfl, rfl, c, List.mem_cons_self c cs, rfl⟩
        · split at hm
          · simp at hm
            subst hm
            exact ⟨rfl, rfl, rfl, c, List.mem_cons_self c cs, rfl⟩
          · simp at hm
            rcases hm with rfl | hm
            · exact ⟨rfl, rfl, rfl, c, List.mem_cons_self c cs, rfl⟩
            · obtain ⟨h1, h2, h3, c', hc', h4⟩ := ih rs2 m hm
              exact ⟨h1, h2, h3, c', List.mem_cons_of_mem c hc', h4⟩

/-- Every chunk the relay loop writes back to the local socket is the
hex-decoded payload of a received response whose type is `data`. -/
theorem traffic_written_from_data (host : Option String) (port : Option Nat)
    (cs : List (List Nat)) : ∀ (rs : List WireMsg),
    ∀ w ∈ (trafficThroughTunnel host port cs rs).2,
      ∃ r ∈ rs, r.mtype = "data" ∧ hexDecodeStr r.mdata = some w := by
  induction cs with
  | nil => intro rs w hw; simp [trafficThroughTunnel] at hw
  | cons c cs ih =>
    intro rs w hw
    simp only [trafficThroughTunnel] at hw
    split at hw
    · simp at hw
    · cases rs with
      | nil => simp at hw
      | cons r rs2 =>
        simp only at hw
        split at hw
        · rename_i hr
          cases hd : hexDecodeStr r.mdata with
          | some bs =>
            rw [hd] at hw
            simp at hw
            rcases hw with rfl | hw
            · exact ⟨r, List.mem_cons_self r rs2, hr, hd⟩
            · obtain ⟨r', hr', h1, h2⟩ := ih rs2 w hw
              exact ⟨r', List.mem_cons_of_mem r hr', h1, h2⟩
          | none =>
            rw [hd] at hw
            simp at hw
        · split at hw
          · simp at hw
          · simp at hw
            obtain ⟨r', hr', h1, h2⟩ := ih rs2 w hw
            exact ⟨r', List.mem_cons_of_mem r hr', h1, h2⟩

/-! ## Frame Codec -/

/-- Modelled from the spec: the binary Frame Codec of spec section 4.1
is absent from this repository's source — the source ships the JSON+hex
text encoding (`dataMessage` above), and the spec's design notes record
the binary framing as the intended codec.  Frame types, with the wire
numbering chosen 1..6 so that byte 0 is out of range. -/
inductive FrameType
  | fOpen
  | fData
  | fClose
  | fError
  | fPing
  | fPong
  deriving DecidableEq, Repr

/-- Wire byte of a frame type. -/
def FrameType.toByte : FrameType → Nat
  | .fOpen => 1
  | .fData => 2
  | .fClose => 3
  | .fError => 4
  | .fPing => 5
  | .fPong => 6

/-- Parse a wire type byte; out-of-range bytes are rejected. -/
def byteToFrameType (b : Nat) : Option FrameType :=
  if b = 1 then some .fOpen
  else if b = 2 then some .fData
  else if b = 3 then some .fClose
  else if b = 4 then some .fError
  else if b = 5 then some .fPing
  else if b = 6 then some .fPong
  else none

/-- Modelled from the spec: the atomic wire unit of spec section 3. -/
structure Frame where
  ftype : FrameType
  streamId : Nat
  payload : List Nat
  deriving DecidableEq, Repr

/-- Payload length bound (spec default 1 MiB). -/
def maxFramePayload : Nat := 1048576

/-- The 4-byte big-endian encoding of a 32-bit value. -/
def be32 (n : Nat) : List Nat :=
  [n / 16777216 % 256, n / 65536 % 256, n / 256 % 256, n % 256]

/-- Big-endian value of 4 bytes. -/
def fromBE32 (a b c d : Nat) : Nat := ((a * 256 + b) * 256 + c) * 256 + d

/-- Modelled from the spec: `encode` — a 1-byte type, 4-byte big-endian
stream id, 4-byte big-endian payload length, then the payload. -/
def encodeFrame (f : Frame) : List Nat :=
  f.ftype.toByte :: (be32 f.streamId ++ (be32 f.payload.length ++ f.payload))

/-- Result of `decode`. -/
inductive DecodeResult
  | ok (f : Frame) (rest : List Nat)
  | incomplete
  | malformed
  deriving DecidableEq, Repr

/-- Modelled from the spec: resumable `decode` — fewer than 9 header
bytes or a payload shorter than the announced length is `incomplete`; a
type byte out of range or an announced length above the configured
maximum is `malformed`; otherwise the frame plus the unconsumed tail. -/
def decodeFrame (bs : List Nat) : DecodeResult :=
  match bs with
  | t :: s0 :: s1 :: s2 :: s3 :: l0 :: l1 :: l2 :: l3 :: rest =>
    match byteToFrameType t with
    | none => .malformed
    | some ty =>
      let len := fromBE32 l0 l1 l2 l3
      if maxFramePayload < len then .malformed
      else if rest.length < len then .incomplete
      else .ok ⟨ty, fromBE32 s0 s1 s2 s3, rest.take len⟩ (rest.drop len)
  | _ => .incomplete

/-- Decoding inverts the wire type byte. -/
theorem byteToFrameType_toByte (t : FrameType) : byteToFrameType t.toByte = some t := by
  cases t <;> rfl

/-- Big-endian 4-byte round trip below 2^32. -/
theorem fromBE32_be32 (n : Nat) (h : n < 4294967296) :
    fromBE32 (n / 16777216 % 256) (n / 65536 % 256) (n / 256 % 256) (n % 256) = n := by
  unfold fromBE32
  omega

/-! ## Transport session lifecycle (src/client.py) -/

/-- The `TunnelClient` fields driving reconnection. -/
structure ClientState where
  reconnectAttempts : Nat
  maxReconnectAttempts : Nat
  running : Bool
  deriving DecidableEq, Repr

/-- Fresh `TunnelClient.__init__` state: zero attempts, maximum 5,
running. -/
def initialClientState : ClientState := ⟨0, 5, true⟩

/-- Model of `TunnelClient._reconnect`: increment the attempt counter; past the
maximum, give up and clear `running` (no sleep); otherwise sleep
`min(5 * attempts, 60)` seconds.  Returns the new state and the delay
slept. -/
def reconnectStep (s : ClientState) : ClientState × Option Nat :=
  let a := s.reconnectAttempts + 1
  if s.maxReconnectAttempts < a then
    ({ s with reconnectAttempts := a, running := false }, none)
  else
    ({ s with reconnectAttempts := a }, some (min (5 * a) 60))

/-- The successive delays slept over `n` calls of `_reconnect`. -/
def reconnectDelays : Nat → ClientState → List (Option Nat)
  | 0, _ => []
  | n + 1, s =>
    (reconnectStep s).2 :: reconnectDelays n (reconnectStep s).1

/-- Model of `TunnelClient.connect_to_server`: the
`while reconnect_attempts < max_reconnect_attempts` loop.  `oracle i`
is the outcome of the i-th `websockets.connect` call in this run
(`false` models `ConnectionRefusedError`).  Returns the final state,
whether a connection was established, and the number of connection
attempts actually made.  `fuel` bounds the recursion;
`max_reconnect_attempts` always suffices because every failing
iteration increments the counter. -/
def connectLoop (oracle : Nat → Bool) : Nat → Nat → ClientState → ClientState × Bool × Nat
  | _, 0, s => (s, false, 0)
  | i, fuel + 1, s =>
    if s.reconnectAttempts < s.maxReconnectAttempts then
      if oracle i then ({ s with reconnectAttempts := 0 }, true, 1)
      else
        let s' := { s with reconnectAttempts := s.reconnectAttempts + 1 }
        if s.maxReconnectAttempts ≤ s'.reconnectAttempts then (s', false, 1)
        else
          let r := connectLoop oracle (i + 1) fuel s'
          (r.1, r.2.1, r.2.2 + 1)
    else (s, false, 0)

/-- Entry point of `TunnelClient.connect_to_server`. -/
def connectToServer (oracle : Nat → Bool) (s : ClientState) : ClientState × Bool × Nat :=
  connectLoop oracle 0 s.maxReconnectAttempts s

/-- The connect-failure path of `run()`'s main loop (src/client.py):
when `connect_to_server` returns False, the loop logs "Retrying...",
sleeps 5 seconds and continues — `running` is left untouched. -/
def runLoopStep (oracle : Nat → Bool) (s : ClientState) : ClientState :=
  if s.running then (connectToServer oracle s).1 else s

/-! ## Theorems for claims C1, C2, C5 -/

/-- C1: given greeting bytes `05 01 00` the ingress replies exactly
`05 00` (whatever bytes follow stay unread for the request phase);
given `05 01 01`, which offers only a method other than no-auth, it
replies exactly `05 FF` and raises, so `handle_client` closes the
connection without entering the relay loop. -/
theorem socks5_greeting_replies :
    (∀ rest : List Nat, socks5Handshake (5 :: 1 :: 0 :: rest) = .ok [5, 0] rest) ∧
    socks5Handshake [5, 1, 1] = .err [5, 255] ∧
    handleClient true [5, 1, 1] = (false, [5, 255]) := by
  refine ⟨fun rest => ?_, by decide, by decide⟩
  simp [socks5Handshake]

/-- C2: a CONNECT request for IPv4 `93.184.216.34:443` parses to the
destination `("93.184.216.34", 443)`, a domain request for
`example.com:80` parses to `("example.com", 80)`, and in general the
port of an IPv4 request is the 2-byte big-endian integer following the
address. -/
theorem target_address_parsing :
    getTargetAddress [5, 1, 0, 1, 93, 184, 216, 34, 1, 187] =
      some ⟨socksReply 0, some ("93.184.216.34", 443), []⟩ ∧
    getTargetAddress
        ([5, 1, 0, 3, 11] ++ [101, 120, 97, 109, 112, 108, 101, 46, 99, 111, 109] ++ [0, 80]) =
      some ⟨socksReply 0, some ("example.com", 80), []⟩ ∧
    (∀ a b c d p q : Nat, ∀ tail : List Nat,
      getTargetAddress (5 :: 1 :: 0 :: 1 :: a :: b :: c :: d :: p :: q :: tail) =
        some ⟨socksReply 0, some (inet_ntop4 [a, b, c, d], 256 * p + q), tail⟩) := by
  refine ⟨by decide, by decide, fun a b c d p q tail => ?_⟩
  simp [getTargetAddress, targetSuccess, fromBytesBE]
  ring

/-- C5: a non-CONNECT command gets reply code 0x07 and an unknown
address type gets reply code 0x08, each with no destination returned —
the reply half of the claim holds.  But the connection is not closed:
`handle_client` never tests the `(None, None)` destination and, with
the websocket up, still enters the relay loop for that connection. -/
theorem unsupported_command_reply_then_relay :
    getTargetAddress [5, 2, 0, 1, 1, 2, 3, 4, 0, 80] =
      some ⟨socksReply 7, none, [1, 2, 3, 4, 0, 80]⟩ ∧
    getTargetAddress [5, 1, 0, 9, 0, 80] =
      some ⟨socksReply 8, none, [0, 80]⟩ ∧
    handleClient true [5, 1, 0, 5, 2, 0, 1, 1, 2, 3, 4, 0, 80] =
      (true, [5, 0] ++ socksReply 7) := by
  exact ⟨by decide, by decide, by decide⟩

/-- C4: with streams A (sending byte 0xAA to alpha.example) and B
(sending byte 0xBB to beta.example) concurrently open over the one
shared websocket, the legal interleaving send A, send B, receive B,
receive A — each coroutine still alternating its own send and receive —
delivers A's bytes to B's local socket and B's bytes to A's: the
mux isolation the claim states does not hold on this code. -/
theorem shared_tunnel_cross_delivery :
    (muxRun ("alpha.example", 1111) ("beta.example", 2222)
        [.sendA [170], .sendB [187], .recvB, .recvA]).bOut = [[170]] ∧
    (muxRun ("alpha.example", 1111) ("beta.example", 2222)
        [.sendA [170], .sendB [187], .recvB, .recvA]).aOut = [[187]] ∧
    [[170]] ≠ [[187]] := by
  exact ⟨by decide, by decide, by decide⟩

/-- C8: the relay server's message processing sends every received
message back unchanged on the same websocket, and its action trace
contains sends only — no outbound TCP dial. -/
theorem process_message_echo_no_dial (msgs : List String) :
    handleConnection msgs = msgs.map ServerAction.send ∧
    (handleConnection msgs).all
      (fun a => match a with | .send _ => true | .dial _ _ => false) = true := by
  have h : handleConnection msgs = msgs.map ServerAction.send := by
    induction msgs with
    | nil => rfl
    | cons m ms ih => simp [handleConnection, processMessage] at ih ⊢; exact ih
  refine ⟨h, ?_⟩
  rw [h]
  simp [List.all_eq_true]

/-- C9: every message the relay loop sends over the transport has
`type = "data"` and carries the full destination host and port together
with one local chunk hex-encoded — the destination is present in every
data message — and a received response is written back to the local
socket only when its `type` field equals `"data"`. -/
theorem data_message_shape (host : String) (port : Nat)
    (cs : List (List Nat)) (rs : List WireMsg) :
    (∀ m ∈ (trafficThroughTunnel (some host) (some port) cs rs).1,
       m.mtype = "data" ∧ m.target_host = some host ∧ m.target_port = some port ∧
       ∃ c ∈ cs, m.mdata = hexEncode c) ∧
    (∀ w ∈ (trafficThroughTunnel (some host) (some port) cs rs).2,
       ∃ r ∈ rs, r.mtype = "data" ∧ hexDecodeStr r.mdata = some w) :=
  ⟨traffic_sent_fields (some host) (some port) cs rs,
   traffic_written_from_data (some host) (some port) cs rs⟩

/-- C9 witness: one relayed chunk through the loop, with the theorem
instantiated at a concrete run. -/
theorem data_message_shape_witness :
    ((dataMessage (some "example.com") (some 80) [1]).mtype = "data" ∧
     (dataMessage (some "example.com") (some 80) [1]).target_host = some "example.com" ∧
     (dataMessage (some "example.com") (some 80) [1]).target_port = some 80 ∧
     ∃ c ∈ [[1]], (dataMessage (some "example.com") (some 80) [1]).mdata = hexEncode c) ∧
    (∃ r ∈ [WireMsg.mk "data" none none "aa"],
       r.mtype = "data" ∧ hexDecodeStr r.mdata = some [170]) :=
  ⟨(data_message_shape "example.com" 80 [[1]] [WireMsg.mk "data" none none "aa"]).1
      (dataMessage (some "example.com") (some 80) [1]) (by decide),
   (data_message_shape "example.com" 80 [[1]] [WireMsg.mk "data" none none "aa"]).2
      [170] (by decide)⟩

/-- C10: one cleanup call removes the websocket from the connections
registry; a second cleanup call on the same websocket leaves the
registry unchanged. -/
theorem cleanup_connection_idempotent (conns : Registry) (w : Nat) :
    cleanupConnection conns w w = none ∧
    cleanupConnection (cleanupConnection conns w) w = cleanupConnection conns w := by
  have h1 : cleanupConnection conns w w = none := by
    unfold cleanupConnection
    cases h : conns w <;> simp [h]
  refine ⟨h1, ?_⟩
  conv_lhs => rw [cleanupConnection.eq_def]
  rw [h1]

/-- C3: for a valid frame (stream id below 2^32, payload within the
configured maximum), decoding the encoding returns the frame with no
unconsumed bytes, and decoding any strict prefix of the encoding
reports `incomplete` — never a frame and never `malformed`. -/
theorem frame_decode_encode (f : Frame)
    (hs : f.streamId < 4294967296) (hp : f.payload.length ≤ maxFramePayload) :
    decodeFrame (encodeFrame f) = .ok f [] ∧
    ∀ pre : List Nat, pre <+: encodeFrame f → pre ≠ encodeFrame f →
      decodeFrame pre = .incomplete := by
  have hlt : f.payload.length < 4294967296 := by
    unfold maxFramePayload at hp
    omega
  have henc : encodeFrame f =
      f.ftype.toByte ::
        (f.streamId / 16777216 % 256) :: (f.streamId / 65536 % 256) ::
        (f.streamId / 256 % 256) :: (f.streamId % 256) ::
        (f.payload.length / 16777216 % 256) :: (f.payload.length / 65536 % 256) ::
        (f.payload.length / 256 % 256) :: (f.payload.length % 256) :: f.payload := rfl
  constructor
  · rw [henc]
    simp only [decodeFrame, byteToFrameType_toByte, fromBE32_be32 f.streamId hs,
      fromBE32_be32 f.payload.length hlt]
    rw [if_neg (by omega), if_neg (by omega)]
    simp
  · intro pre hpre hne
    obtain ⟨tl, htl⟩ := hpre
    have htlne : tl ≠ [] := by
      intro h
      apply hne
      rw [← htl, h, List.append_nil]
    rcases pre with _ | ⟨x1, _ | ⟨x2, _ | ⟨x3, _ | ⟨x4, _ | ⟨x5, _ | ⟨x6, _ | ⟨x7, _ |
        ⟨x8, _ | ⟨x9, rest⟩⟩⟩⟩⟩⟩⟩⟩⟩
    · rfl
    · rfl
    · rfl
    · rfl
    · rfl
    · rfl
    · rfl
    · rfl
    · rfl
    · rw [henc] at htl
      simp only [List.cons_append, List.cons.injEq] at htl
      obtain ⟨e1, e2, e3, e4, e5, e6, e7, e8, e9, hrest⟩ := htl
      subst e1; subst e2; subst e3; subst e4; subst e5
      subst e6; subst e7; subst e8; subst e9
      have hlen : rest.length < f.payload.length := by
        have := congrArg List.length hrest
        simp only [List.length_append] at this
        have htlpos : 0 < tl.length := List.length_pos.mpr htlne
        omega
      simp only [decodeFrame, byteToFrameType_toByte,
        fromBE32_be32 f.payload.length hlt]
      rw [if_neg (by omega), if_pos hlen]

/-- C3 witness: a concrete DATA frame round-trips, and a concrete
strict prefix of its encoding decodes as incomplete. -/
theorem frame_decode_encode_witness :
    decodeFrame (encodeFrame ⟨.fData, 7, [1, 2, 3]⟩) = .ok ⟨.fData, 7, [1, 2, 3]⟩ [] ∧
    decodeFrame [2, 0, 0] = .incomplete :=
  ⟨(frame_decode_encode ⟨.fData, 7, [1, 2, 3]⟩ (by decide) (by decide)).1,
   (frame_decode_encode ⟨.fData, 7, [1, 2, 3]⟩ (by decide) (by decide)).2 [2, 0, 0]
     ⟨[0, 7, 0, 0, 0, 3, 1, 2, 3], by decide⟩ (by decide)⟩

/-- Helper for C6: the n-th `_reconnect` delay, counting from a
running state with `a` attempts already recorded, is
`min (5 * (a + n + 1)) 60` for every attempt the loop still performs. -/
theorem reconnectDelays_getD (k : Nat) : ∀ (a mx n : Nat), a + n + 1 ≤ mx → n < k →
    (reconnectDelays k ⟨a, mx, true⟩).getD n none = some (min (5 * (a + n + 1)) 60) := by
  induction k with
  | zero => intro a mx n _ hn; omega
  | succ k ih =>
    intro a mx n hle hn
    have hstep : reconnectStep ⟨a, mx, true⟩ =
        (⟨a + 1, mx, true⟩, some (min (5 * (a + 1)) 60)) := by
      unfold reconnectStep
      rw [if_neg (by simp; omega)]
    cases n with
    | zero =>
      simp [reconnectDelays, hstep]
    | succ n =>
      have := ih (a + 1) mx n (by omega) (by omega)
      simp only [reconnectDelays, hstep, List.getD_cons_succ]
      rw [this]
      congr 2
      omega

/-- C6 counterexample: no fixed rational initial backoff, multiplier
and cap reproduce the delays `_reconnect` actually sleeps before its
five attempts — the observed sequence 5, 10, 15, 20, 25 is linear, not
geometric. -/
theorem reconnect_backoff_not_geometric :
    ¬ ∃ a m M : ℚ, ∀ n : Nat, n < 5 →
      (((reconnectDelays 5 initialClientState).getD n none).getD 0 : ℚ) =
        min (a * m ^ n) M := by
  rintro ⟨a, m, M, h⟩
  have e : reconnectDelays 5 initialClientState =
      [some 5, some 10, some 15, some 20, some 25] := by decide
  have h0 := h 0 (by omega)
  have h1 := h 1 (by omega)
  have h2 := h 2 (by omega)
  have h4 := h 4 (by omega)
  rw [e] at h0 h1 h2 h4
  norm_num at h0 h1 h2 h4
  have hM : (25 : ℚ) ≤ M := by
    have := min_le_right (a * m ^ 4) M
    linarith
  have ha : a = 5 := by
    rcases le_total a M with hle | hle
    · rw [min_eq_left hle] at h0; linarith
    · rw [min_eq_right hle] at h0; linarith
  subst ha
  have hm2 : m = 2 := by
    rcases le_total ((5 : ℚ) * m) M with hle | hle
    · rw [min_eq_left hle] at h1; linarith
    · rw [min_eq_right hle] at h1; linarith
  subst hm2
  rw [show (5 : ℚ) * 2 ^ 2 = 20 by norm_num] at h2
  rcases le_total (20 : ℚ) M with hle | hle
  · rw [min_eq_left hle] at h2; norm_num at h2
  · rw [min_eq_right hle] at h2; linarith

/-- C6 amended: the delay the client sleeps before its (n+1)-st
reconnection attempt is `min (5 * (n + 1)) 60` seconds — linear in the
attempt count, capped at 60 seconds. -/
theorem reconnect_backoff_linear_capped (n : Nat) (h : n < 5) :
    (reconnectDelays 5 initialClientState).getD n none =
      some (min (5 * (n + 1)) 60) := by
  have := reconnectDelays_getD 5 0 5 n (by omega) h
  simpa using this

/-- C6 witness: the third delay is 15 seconds. -/
theorem reconnect_backoff_linear_capped_witness :
    (reconnectDelays 5 initialClientState).getD 2 none =
      some (min (5 * (2 + 1)) 60) :=
  reconnect_backoff_linear_capped 2 (by decide)

/-- C7: running against a dead server, `connect_to_server` exhausts its
five attempts and leaves the counter at the maximum; from that state it
makes zero further connection attempts and fails — but `run()`'s loop
never reports terminal failure: iterating its connect-failure path any
number of times leaves the state unchanged with `running` still true,
an endless retry loop.  (Only the `_reconnect` path, not this one,
clears `running`.) -/
theorem exhausted_attempts_loop_forever (oracle : Nat → Bool) (k : Nat) :
    connectToServer (fun _ => false) initialClientState = (⟨5, 5, true⟩, false, 5) ∧
    (connectToServer oracle ⟨5, 5, true⟩).2.2 = 0 ∧
    (connectToServer oracle ⟨5, 5, true⟩).2.1 = false ∧
    (runLoopStep oracle)^[k] ⟨5, 5, true⟩ = ⟨5, 5, true⟩ ∧
    ((runLoopStep oracle)^[k] ⟨5, 5, true⟩).running = true := by
  have hfix : runLoopStep oracle ⟨5, 5, true⟩ = ⟨5, 5, true⟩ := rfl
  refine ⟨by decide, rfl, rfl, Function.iterate_fixed hfix k, ?_⟩
  rw [Function.iterate_fixed hfix k]

end AFB
